import Mathlib

/-
Verification of the real-time location-broadcast subsystem of the
NestServerlessVerc repository (serverless GPS tracking backend).

The live-viewer state is a DynamoDB table `WebSocketConnections-<stage>`
keyed by `connectionId`, with a global secondary index `DeviceCodeIndex`
on the `deviceCode` attribute.  We embed the table as an association
list from connection id to the item's attributes; every attribute is
optional because DynamoDB items are schemaless and the different
handlers write different attribute sets.

Embedded source files:
  - `serverless/functions/websocket/connect.ts`    (src/unnamed/part_006, first handler)
  - `serverless/functions/websocket/disconnect.ts` (src/unnamed/part_006, second handler)
  - `serverless/functions/websocket/join-room.ts`  (src/unnamed/part_005)
  - `serverless/shared/utils.ts` `parseBody`       (src/src/shared/utils.ts)
  - `broadcastLocationUpdate` and its call site in the track-device
    handler (src/src/devices/track-device.ts)
-/

/-- One item of the `WebSocketConnections` table.  Each field models one
DynamoDB attribute; `none` means the attribute is absent from the item.
The connect handler writes `timestamp`, `ttl`, `status`; the join-room
handler writes `deviceCode`, `joinedAt`, `ttl`. -/
structure ConnItem where
  timestamp : Option Nat
  ttl : Option Nat
  status : Option String
  deviceCode : Option String
  joinedAt : Option Nat
  deriving DecidableEq, Repr

/-- The `WebSocketConnections` table: association list from
`connectionId` (the table's primary key) to the item's attributes. -/
abbrev Registry := List (String × ConnItem)

/-- The keys (connection ids) present in the table. -/
def keysOf (reg : Registry) : List String :=
  reg.map Prod.fst

/-- Well-formedness of the embedding: DynamoDB keys are unique, so the
association list never holds two entries with the same connection id. -/
def keysNodup (reg : Registry) : Prop :=
  (keysOf reg).Nodup

instance (reg : Registry) : Decidable (keysNodup reg) := by
  unfold keysNodup; infer_instance

/-- `GetItem`-style read of the item stored under `id` (the first entry
with that key; under `keysNodup` there is at most one). -/
def lookupItem (id : String) : Registry → Option ConnItem
  | [] => none
  | e :: rest => if e.1 = id then some e.2 else lookupItem id rest

/-- DynamoDB write semantics shared by `PutItem` and `UpdateItem`: both
are upserts on the primary key.  If an entry keyed `id` exists, its item
is rewritten by `f`; otherwise a fresh item `fr` is created. -/
def upsert (id : String) (f : ConnItem → ConnItem) (fr : ConnItem) : Registry → Registry
  | [] => [(id, fr)]
  | e :: rest => if e.1 = id then (id, f e.2) :: rest else e :: upsert id f fr rest

/-- `dynamodb.put`: replaces the whole item under key `id` (or creates it). -/
def ddbPut (id : String) (item : ConnItem) (reg : Registry) : Registry :=
  upsert id (fun _ => item) item reg

/-- `dynamodb.update` with
`UpdateExpression: 'SET deviceCode = :deviceCode, joinedAt = :timestamp, #ttl = :ttl'`.
DynamoDB `UpdateItem` is an upsert: with no `ConditionExpression`, an
absent key is created as a new item carrying only the three SET
attributes; a present key keeps its other attributes. -/
def ddbUpdateJoin (id dc : String) (ts tl : Nat) (reg : Registry) : Registry :=
  upsert id
    (fun it => { it with deviceCode := some dc, joinedAt := some ts, ttl := some tl })
    { timestamp := none, ttl := some tl, status := none,
      deviceCode := some dc, joinedAt := some ts }
    reg

/-- `dynamodb.delete`: removes the item under key `id`; no error if absent. -/
def ddbDelete (id : String) (reg : Registry) : Registry :=
  reg.filter (fun e => e.1 ≠ id)

/-- `dynamodb.query` on the `DeviceCodeIndex` GSI with
`KeyConditionExpression: 'deviceCode = :deviceCode'`.  Items lacking the
`deviceCode` attribute are not in the index; there is no filter on
`ttl`/expiry. -/
def queryByDeviceCode (dc : String) (reg : Registry) : Registry :=
  reg.filter (fun e => e.2.deviceCode == some dc)

/-- An API Gateway HTTP response: status code plus the JSON-stringified
body the handler returns. -/
structure HttpRes where
  statusCode : Nat
  body : String
  deriving DecidableEq, Repr

/-- JSON string escaping as performed by `JSON.stringify` on a member
string (quote, backslash and control characters escaped). -/
def escapeChar (c : Char) : String :=
  if c = '"' then "\\\""
  else if c = '\\' then "\\\\"
  else if c = Char.ofNat 8 then "\\b"
  else if c = Char.ofNat 12 then "\\f"
  else if c = '\n' then "\\n"
  else if c = '\r' then "\\r"
  else if c = '\t' then "\\t"
  else if c.toNat < 32 then
    "\\u00" ++ String.singleton (Nat.digitChar (c.toNat / 16)) ++
      String.singleton (Nat.digitChar (c.toNat % 16))
  else String.singleton c

def jsonEscape (s : String) : String :=
  String.join (s.toList.map escapeChar)

/-- A JSON string literal: `JSON.stringify` of a string value. -/
def jstr (s : String) : String :=
  "\"" ++ jsonEscape s ++ "\""

/-- The `$connect` handler (`connect.ts`): stores
`{ connectionId, timestamp, ttl, status: 'connected' }` with
`ttl = Math.floor(Date.now() / 1000) + 86400` and answers 200.
`now` is `Date.now()` in milliseconds. -/
def connectHandler (id : String) (now : Nat) (reg : Registry) : Registry × HttpRes :=
  let tl := now / 1000 + 86400
  (ddbPut id { timestamp := some now, ttl := some tl, status := some "connected",
               deviceCode := none, joinedAt := none } reg,
   { statusCode := 200,
     body := "\x7b\"message\":\"Connected successfully\",\"connectionId\":" ++ jstr id ++ "\x7d" })

/-- The `$disconnect` handler (`disconnect.ts`): deletes the item and
answers 200 (idempotent - delete of an absent key is a no-op). -/
def disconnectHandler (id : String) (reg : Registry) : Registry × HttpRes :=
  (ddbDelete id reg,
   { statusCode := 200, body := "\x7b\"message\":\"Disconnected successfully\"\x7d" })

/-- The parsed shape of a join-room message body: at most a `deviceCode`
member.  `deviceCode = none` models the member being absent (or the
body being the empty object `\x7b\x7d`). -/
structure JoinRoomRequest where
  deviceCode : Option String
  deriving DecidableEq, Repr

/-- `parseBody` from `shared/utils.ts`: a falsy body (`null` or the
empty string) yields the empty object; otherwise `JSON.parse` is
attempted and a parse failure becomes the thrown error
`'Invalid JSON body'`.  `JSON.parse` itself is a transport-supplied
function, abstracted as the `jp` argument (returning `none` on
malformed input). -/
def parseBody (jp : String → Option JoinRoomRequest) (body : Option String) :
    Except String JoinRoomRequest :=
  match body with
  | none => .ok { deviceCode := none }
  | some s =>
    if s = "" then .ok { deviceCode := none }
    else
      match jp s with
      | some v => .ok v
      | none => .error "Invalid JSON body"

/-- The `joinRoom` handler (`join-room.ts`): parses the body; a falsy
`deviceCode` (absent or empty string) is answered 400 with no table
write; otherwise the item under the connection id is updated (upserted)
with `deviceCode`, `joinedAt = Date.now()` and
`ttl = Math.floor(Date.now() / 1000) + 86400`, answering 200.  A thrown
error (invalid JSON) is caught and answered 500. -/
def joinRoomHandler (jp : String → Option JoinRoomRequest) (id : String)
    (body : Option String) (now : Nat) (reg : Registry) : Registry × HttpRes :=
  match parseBody jp body with
  | .error _ =>
    (reg, { statusCode := 500, body := "\x7b\"message\":\"Failed to join room\"\x7d" })
  | .ok b =>
    match b.deviceCode with
    | none =>
      (reg, { statusCode := 400, body := "\x7b\"message\":\"Device code is required\"\x7d" })
    | some dc =>
      if dc = "" then
        (reg, { statusCode := 400, body := "\x7b\"message\":\"Device code is required\"\x7d" })
      else
        let tl := now / 1000 + 86400
        (ddbUpdateJoin id dc now tl reg,
         { statusCode := 200,
           body := "\x7b\"message\":" ++ jstr ("Joined room for device: " ++ dc) ++
             ",\"deviceCode\":" ++ jstr dc ++ "\x7d" })

/-- The location payload object built by the track-device handler at the
`broadcastLocationUpdate` call site: the fix's coordinates, the optional
telemetry members, and `trackedAt` already rendered as an ISO-8601
string via `Date.prototype.toISOString`.  `none` models a member whose
value is `undefined` (omitted by `JSON.stringify`). -/
structure TrackData where
  lat : String
  long : String
  level : Option String
  altitude : Option String
  speed : Option String
  compress : Option String
  weight : Option String
  noOfSatellites : Option String
  trackedAt : String
  deriving DecidableEq, Repr

/-- The validated body of a track-device request (`TrackDeviceRequest`
in `track-device.ts`): `lat` and `long` required, the rest optional. -/
structure TrackDeviceRequest where
  lat : String
  long : String
  level : Option String
  altitude : Option String
  speed : Option String
  compress : Option String
  weight : Option String
  noOfSatellites : Option String
  deriving DecidableEq, Repr

/-- The `LocationUpdate` wire object of `track-device.ts`:
`\x7b type, deviceCode, iotSimNumber, data \x7d`. -/
structure LocationUpdate where
  type : String
  deviceCode : String
  iotSimNumber : String
  data : TrackData
  deriving DecidableEq, Repr

/-- `JSON.stringify` of one optional object member: `undefined` members
are omitted entirely, present ones are emitted as `,"k":"v"`. -/
def optMember (k : String) (v : Option String) : String :=
  match v with
  | none => ""
  | some s => "," ++ jstr k ++ ":" ++ jstr s

/-- `JSON.stringify` of the `data` member, with members in the insertion
order of the object literal at the `broadcastLocationUpdate` call site:
lat, long, level, altitude, speed, compress, weight, noOfSatellites,
trackedAt. -/
def renderTrackData (d : TrackData) : String :=
  "\x7b" ++ jstr "lat" ++ ":" ++ jstr d.lat ++ "," ++ jstr "long" ++ ":" ++ jstr d.long ++
    optMember "level" d.level ++ optMember "altitude" d.altitude ++
    optMember "speed" d.speed ++ optMember "compress" d.compress ++
    optMember "weight" d.weight ++ optMember "noOfSatellites" d.noOfSatellites ++
    "," ++ jstr "trackedAt" ++ ":" ++ jstr d.trackedAt ++ "\x7d"

/-- `JSON.stringify(locationUpdate)`: the single serialized message of
`broadcastLocationUpdate`, members in insertion order: type, deviceCode,
iotSimNumber, data. -/
def renderLocationUpdate (u : LocationUpdate) : String :=
  "\x7b" ++ jstr "type" ++ ":" ++ jstr u.type ++ "," ++ jstr "deviceCode" ++ ":" ++
    jstr u.deviceCode ++ "," ++ jstr "iotSimNumber" ++ ":" ++ jstr u.iotSimNumber ++
    "," ++ jstr "data" ++ ":" ++ renderTrackData u.data ++ "\x7d"

/-- The `locationUpdate` object literal of `broadcastLocationUpdate`:
`type` is always the constant `'location-update'`. -/
def mkLocationUpdate (dc simN : String) (d : TrackData) : LocationUpdate :=
  { type := "location-update", deviceCode := dc, iotSimNumber := simN, data := d }

/-- Outcome of one `apiGateway.postToConnection` call, as observed by
the per-connection catch block: either the promise resolves, or it
rejects with an error whose `statusCode` property may be a number or
absent. -/
inductive PushOutcome where
  | delivered : PushOutcome
  | failed : Option Nat → PushOutcome
  deriving DecidableEq, Repr

/-- The eviction test of the catch block: `error.statusCode === 410`
(API Gateway's GoneException - the connection no longer exists). -/
def isGone : PushOutcome → Bool
  | .failed (some c) => c == 410
  | _ => false

/-- The `PublishReport` abstraction of section 4.3 of the design spec,
computed from the observable actions of `broadcastLocationUpdate` (the
code itself returns `void`): how many pushes were attempted, how many
resolved, how many ended in eviction of the connection. -/
structure PublishReport where
  attempted : Nat
  delivered : Nat
  evicted : Nat
  deriving DecidableEq, Repr

/-- Everything observable about one `broadcastLocationUpdate` call:
the table contents afterwards, the list of `postToConnection` calls as
(connectionId, serialized payload) pairs, the derived report, and the
error the returned promise rejects with (`none` = resolves normally). -/
structure BroadcastResult where
  registry : Registry
  pushes : List (String × String)
  report : PublishReport
  propagated : Option String
  deriving DecidableEq, Repr

/-- The registry reconciliation performed by the fan-out: each
per-connection task whose push failed with status 410 deletes its own
connection id; all other outcomes leave the table untouched.  The
concurrent tasks delete pairwise distinct keys, so their net effect is
this fold. -/
def reconcile (oc : String → PushOutcome) (conns : Registry) (reg : Registry) : Registry :=
  conns.foldl (fun r c => if isGone (oc c.1) then ddbDelete c.1 r else r) reg

/-- `broadcastLocationUpdate(deviceCode, iotSimNumber, locationData)`.
`oc` gives each connection's push outcome (the transport's behaviour);
`storeUp = false` models the DynamoDB query rejecting (backing store
unreachable).  The entire body is wrapped in a try/catch that only logs,
so the function returns normally in every case (`propagated = none`
throughout); a store failure yields no pushes and no table change.
Steps when the store is up: query `DeviceCodeIndex` for the room's
connections; return silently if none; build `locationUpdate`, stringify
it once into `message`; post `message` to every connection; delete the
connections whose push failed with status 410.  We model the
`WEBSOCKET_ENDPOINT` environment variable as configured (the handler
only calls this function when it is). -/
def broadcastLocationUpdate (oc : String → PushOutcome) (storeUp : Bool)
    (deviceCode iotSimNumber : String) (locationData : TrackData)
    (reg : Registry) : BroadcastResult :=
  if storeUp = false then
    { registry := reg, pushes := [],
      report := { attempted := 0, delivered := 0, evicted := 0 }, propagated := none }
  else
    let conns := queryByDeviceCode deviceCode reg
    if conns.isEmpty then
      { registry := reg, pushes := [],
        report := { attempted := 0, delivered := 0, evicted := 0 }, propagated := none }
    else
      let message := renderLocationUpdate (mkLocationUpdate deviceCode iotSimNumber locationData)
      { registry := reconcile oc conns reg,
        pushes := conns.map (fun c => (c.1, message)),
        report :=
          { attempted := conns.length,
            delivered := (conns.filter (fun c => oc c.1 == .delivered)).length,
            evicted := (conns.filter (fun c => isGone (oc c.1))).length },
        propagated := none }

/-- The connection ids a `broadcastLocationUpdate` call posts to. -/
def pushTargets (oc : String → PushOutcome) (storeUp : Bool) (dc simN : String)
    (d : TrackData) (reg : Registry) : List String :=
  (broadcastLocationUpdate oc storeUp dc simN d reg).pushes.map Prod.fst

/-- Date arithmetic of `Date.prototype.toISOString`: civil date from the
number of days since 1970-01-01 (valid for non-negative timestamps,
i.e. every value `Date.now()` can produce). -/
def civilFromDays (days : Nat) : Nat × Nat × Nat :=
  let z := days + 719468
  let era := z / 146097
  let doe := z % 146097
  let yoe := (doe - doe / 1460 + doe / 36524 - doe / 146096) / 365
  let doy := doe - (365 * yoe + yoe / 4 - yoe / 100)
  let mp := (5 * doy + 2) / 153
  let d := doy - (153 * mp + 2) / 5 + 1
  let m := if mp < 10 then mp + 3 else mp - 9
  let y := yoe + era * 400 + (if m ≤ 2 then 1 else 0)
  (y, m, d)

def pad2 (n : Nat) : String :=
  if n < 10 then "0" ++ toString n else toString n

def pad3 (n : Nat) : String :=
  if n < 10 then "00" ++ toString n
  else if n < 100 then "0" ++ toString n
  else toString n

def pad4 (n : Nat) : String :=
  if n < 10 then "000" ++ toString n
  else if n < 100 then "00" ++ toString n
  else if n < 1000 then "0" ++ toString n
  else toString n

/-- `Date.prototype.toISOString` for a non-negative epoch timestamp in
milliseconds: `YYYY-MM-DDTHH:mm:ss.sssZ` (UTC). -/
def toISOString (ms : Nat) : String :=
  let s := ms / 1000
  let secOfDay := s % 86400
  let c := civilFromDays (s / 86400)
  pad4 c.1 ++ "-" ++ pad2 c.2.1 ++ "-" ++ pad2 c.2.2 ++ "T" ++
    pad2 (secOfDay / 3600) ++ ":" ++ pad2 (secOfDay % 3600 / 60) ++ ":" ++
    pad2 (secOfDay % 60) ++ "." ++ pad3 (ms % 1000) ++ "Z"

/-- The `broadcastLocationUpdate` call site in the track-device handler:
the validated request fields are forwarded unchanged and `trackedAt`
(the `new Date()` taken before the tracking row is written, as epoch
milliseconds) is rendered with `toISOString`. -/
def trackDeviceBroadcast (oc : String → PushOutcome) (storeUp : Bool)
    (code iotSimNumber : String) (req : TrackDeviceRequest) (trackedAtMs : Nat)
    (reg : Registry) : BroadcastResult :=
  broadcastLocationUpdate oc storeUp code iotSimNumber
    { lat := req.lat, long := req.long, level := req.level, altitude := req.altitude,
      speed := req.speed, compress := req.compress, weight := req.weight,
      noOfSatellites := req.noOfSatellites, trackedAt := toISOString trackedAtMs }
    reg

/-- The lifecycle and dispatch operations that write the connection
table, for stating reachable-state invariants: the connect handler's
put, the join handler's update (with its derived ttl), the disconnect
handler's delete, the dispatcher's eviction delete, and a whole
`broadcastLocationUpdate` call. -/
inductive Op where
  | connect : String → Nat → Op
  | join : String → String → Nat → Op
  | disconnect : String → Op
  | evict : String → Op
  | publish : (String → PushOutcome) → Bool → String → String → TrackData → Op

/-- Effect of one operation on the connection table. -/
def stepOp (reg : Registry) : Op → Registry
  | .connect id now => (connectHandler id now reg).1
  | .join id dc now => ddbUpdateJoin id dc now (now / 1000 + 86400) reg
  | .disconnect id => (disconnectHandler id reg).1
  | .evict id => ddbDelete id reg
  | .publish oc up dc simN d => (broadcastLocationUpdate oc up dc simN d reg).registry

/-- The table state after running a sequence of operations from the
empty table. -/
def runOps (ops : List Op) : Registry :=
  ops.foldl stepOp []

/-- Room membership as the dispatcher resolves it: the connection id
appears in the `DeviceCodeIndex` query for the room. -/
def memberOf (id dc : String) (reg : Registry) : Prop :=
  id ∈ keysOf (queryByDeviceCode dc reg)

instance (id dc : String) (reg : Registry) : Decidable (memberOf id dc reg) := by
  unfold memberOf; infer_instance

/-- The table after a reachable state is followed by
`onJoin(id, "DEV1")` and then `onJoin(id, "DEV2")`. -/
def rejoinState (ops : List Op) (id : String) (n1 n2 : Nat) : Registry :=
  runOps (ops ++ [.join id "DEV1" n1, .join id "DEV2" n2])

/-! ### Lemmas about the registry primitives -/

theorem lookupItem_upsert_self (id : String) (f : ConnItem → ConnItem) (fr : ConnItem)
    (reg : Registry) :
    lookupItem id (upsert id f fr reg) = some ((lookupItem id reg).elim fr f) := by
  induction reg with
  | nil => simp [upsert, lookupItem]
  | cons e rest ih =>
    by_cases h : e.1 = id
    · simp [upsert, lookupItem, h]
    · simp [upsert, lookupItem, h, ih]

theorem lookupItem_upsert_other (x id : String) (f : ConnItem → ConnItem) (fr : ConnItem)
    (reg : Registry) (hx : x ≠ id) :
    lookupItem x (upsert id f fr reg) = lookupItem x reg := by
  have hix : ¬ id = x := fun h => hx h.symm
  induction reg with
  | nil => simp [upsert, lookupItem, hix]
  | cons e rest ih =>
    by_cases h : e.1 = id
    · have hex : ¬ e.1 = x := by rw [h]; exact hix
      simp only [upsert, if_pos h, lookupItem, if_neg hix, if_neg hex]
    · simp only [upsert, if_neg h, lookupItem, ih]

theorem mem_keysOf_upsert (x id : String) (f : ConnItem → ConnItem) (fr : ConnItem)
    (reg : Registry) :
    x ∈ keysOf (upsert id f fr reg) → x ∈ keysOf reg ∨ x = id := by
  induction reg with
  | nil => intro hx; right; simpa [upsert, keysOf] using hx
  | cons e rest ih =>
    intro hx
    by_cases h : e.1 = id
    · simp only [upsert, if_pos h, keysOf, List.map_cons, List.mem_cons] at hx ⊢
      rcases hx with hx | hx
      · right; exact hx
      · left; right; exact hx
    · simp only [upsert, if_neg h, keysOf, List.map_cons, List.mem_cons] at hx ⊢
      rcases hx with hx | hx
      · left; left; exact hx
      · rcases ih hx with h' | h'
        · left; right; exact h'
        · right; exact h'

theorem self_mem_keysOf_upsert (id : String) (f : ConnItem → ConnItem) (fr : ConnItem)
    (reg : Registry) : id ∈ keysOf (upsert id f fr reg) := by
  induction reg with
  | nil => simp [upsert, keysOf]
  | cons e rest ih =>
    by_cases h : e.1 = id <;> simp [upsert, keysOf, h] at ih ⊢
    · exact Or.inr ih

theorem keysNodup_upsert (id : String) (f : ConnItem → ConnItem) (fr : ConnItem)
    (reg : Registry) :
    keysNodup reg → keysNodup (upsert id f fr reg) := by
  induction reg with
  | nil => intro _; simp [upsert, keysNodup, keysOf]
  | cons e rest ih =>
    intro hnd
    simp only [keysNodup, keysOf, List.map_cons, List.nodup_cons] at hnd
    by_cases h : e.1 = id
    · simp only [upsert, if_pos h, keysNodup, keysOf, List.map_cons, List.nodup_cons]
      exact ⟨h ▸ hnd.1, hnd.2⟩
    · simp only [upsert, if_neg h, keysNodup, keysOf, List.map_cons, List.nodup_cons]
      refine ⟨fun hmem => ?_, ih hnd.2⟩
      rcases mem_keysOf_upsert e.1 id f fr rest hmem with h' | h'
      · exact hnd.1 h'
      · exact h h'

theorem lookupItem_eq_none_iff (x : String) (reg : Registry) :
    lookupItem x reg = none ↔ x ∉ keysOf reg := by
  induction reg with
  | nil => simp [lookupItem, keysOf]
  | cons e rest ih =>
    by_cases h : e.1 = x
    · simp [lookupItem, keysOf, h]
    · have h2 : ¬ x = e.1 := fun hc => h hc.symm
      simp [lookupItem, keysOf, h, h2, ih]

theorem lookupItem_ddbDelete_self (id : String) (reg : Registry) :
    lookupItem id (ddbDelete id reg) = none := by
  induction reg with
  | nil => simp [ddbDelete, lookupItem]
  | cons e rest ih =>
    by_cases h : e.1 = id <;>
      simp_all [ddbDelete, lookupItem, h, List.filter]

theorem lookupItem_ddbDelete_other (x id : String) (reg : Registry) (hx : x ≠ id) :
    lookupItem x (ddbDelete id reg) = lookupItem x reg := by
  induction reg with
  | nil => simp [ddbDelete]
  | cons e rest ih =>
    by_cases h : e.1 = id
    · have hex : ¬ e.1 = x := fun hc => hx (hc ▸ h)
      simp_all [ddbDelete, lookupItem, List.filter, h, hex]
    · by_cases h' : e.1 = x <;> simp_all [ddbDelete, lookupItem, List.filter, h, h']

theorem keysNodup_ddbDelete (id : String) (reg : Registry) (hnd : keysNodup reg) :
    keysNodup (ddbDelete id reg) := by
  have hsub : List.Sublist (keysOf (ddbDelete id reg)) (keysOf reg) :=
    List.Sublist.map Prod.fst (List.filter_sublist reg)
  exact List.Nodup.sublist hsub hnd

theorem mem_keysOf_query (x dc : String) (reg : Registry) :
    x ∈ keysOf (queryByDeviceCode dc reg) ↔
      ∃ it : ConnItem, (x, it) ∈ reg ∧ it.deviceCode = some dc := by
  constructor
  · intro hx
    simp only [keysOf, queryByDeviceCode, List.mem_map, List.mem_filter] at hx
    rcases hx with ⟨e, ⟨hmem, hdc⟩, hfst⟩
    refine ⟨e.2, ?_, ?_⟩
    · have : (x, e.2) = e := by
        cases e; simp at hfst; simp [hfst]
      rw [this]; exact hmem
    · simpa using hdc
  · rintro ⟨it, hmem, hdc⟩
    simp only [keysOf, queryByDeviceCode, List.mem_map, List.mem_filter]
    exact ⟨(x, it), ⟨hmem, by simpa using hdc⟩, rfl⟩

theorem lookupItem_of_mem (x : String) (it : ConnItem) (reg : Registry)
    (hnd : keysNodup reg) (hmem : (x, it) ∈ reg) : lookupItem x reg = some it := by
  induction reg with
  | nil => cases hmem
  | cons e rest ih =>
    simp only [keysNodup, keysOf, List.map_cons, List.nodup_cons] at hnd
    rcases List.mem_cons.1 hmem with h | h
    · rw [← h]; simp [lookupItem]
    · have hme : x ∈ keysOf rest := by
        simp only [keysOf, List.mem_map]; exact ⟨(x, it), h, rfl⟩
      have hne : ¬ e.1 = x := fun hc => hnd.1 (hc ▸ hme)
      simp only [lookupItem, if_neg hne]
      exact ih hnd.2 h

theorem mem_of_lookupItem (x : String) (it : ConnItem) (reg : Registry)
    (hl : lookupItem x reg = some it) : (x, it) ∈ reg := by
  induction reg with
  | nil => simp [lookupItem] at hl
  | cons e rest ih =>
    by_cases h : e.1 = x
    · simp only [lookupItem, if_pos h] at hl
      have he : e = (x, it) := by
        obtain ⟨a, b⟩ := e
        simp only at h hl
        simp [Prod.ext_iff, h, Option.some.inj hl]
      exact List.mem_cons.2 (Or.inl he.symm)
    · simp only [lookupItem, if_neg h] at hl
      exact List.mem_cons_of_mem e (ih hl)

/-- Under key uniqueness, room membership is exactly: the stored item's
`deviceCode` attribute names that room. -/
theorem memberOf_iff_lookup (x dc : String) (reg : Registry) (hnd : keysNodup reg) :
    memberOf x dc reg ↔
      ∃ it : ConnItem, lookupItem x reg = some it ∧ it.deviceCode = some dc := by
  unfold memberOf
  rw [mem_keysOf_query]
  constructor
  · rintro ⟨it, hmem, hdc⟩
    exact ⟨it, lookupItem_of_mem x it reg hnd hmem, hdc⟩
  · rintro ⟨it, hl, hdc⟩
    exact ⟨it, mem_of_lookupItem x it reg hl, hdc⟩

/-! ### Lemmas about the fan-out reconciliation -/

theorem lookupItem_reconcile_of_none (oc : String → PushOutcome) (x : String)
    (conns : Registry) (reg : Registry) :
    lookupItem x reg = none → lookupItem x (reconcile oc conns reg) = none := by
  induction conns generalizing reg with
  | nil => intro h; simpa [reconcile] using h
  | cons c rest ih =>
    intro h
    simp only [reconcile, List.foldl_cons]
    by_cases hg : isGone (oc c.1)
    · rw [if_pos hg]
      refine ih (ddbDelete c.1 reg) ?_
      by_cases hx : x = c.1
      · rw [hx]; exact lookupItem_ddbDelete_self c.1 reg
      · rw [lookupItem_ddbDelete_other x c.1 reg hx]; exact h
    · rw [if_neg hg]; exact ih reg h

theorem lookupItem_reconcile_not_gone (oc : String → PushOutcome) (x : String)
    (conns : Registry) (reg : Registry) (hng : isGone (oc x) = false) :
    lookupItem x (reconcile oc conns reg) = lookupItem x reg := by
  induction conns generalizing reg with
  | nil => simp [reconcile]
  | cons c rest ih =>
    simp only [reconcile, List.foldl_cons]
    by_cases hg : isGone (oc c.1)
    · rw [if_pos hg]
      have hx : x ≠ c.1 := fun hc => by rw [hc] at hng; rw [hng] at hg; cases hg
      have := ih (ddbDelete c.1 reg)
      simp only [reconcile] at this
      rw [this, lookupItem_ddbDelete_other x c.1 reg hx]
    · rw [if_neg hg]
      have := ih reg
      simpa [reconcile] using this

theorem lookupItem_reconcile_gone (oc : String → PushOutcome) (x : String)
    (conns : Registry) (reg : Registry) (hx : x ∈ keysOf conns)
    (hg : isGone (oc x) = true) :
    lookupItem x (reconcile oc conns reg) = none := by
  induction conns generalizing reg with
  | nil => cases hx
  | cons c rest ih =>
    simp only [reconcile, List.foldl_cons]
    by_cases hc : c.1 = x
    · rw [hc, hg, if_pos rfl]
      refine lookupItem_reconcile_of_none oc x rest (ddbDelete x reg) ?_
      exact lookupItem_ddbDelete_self x reg
    · have hxr : x ∈ keysOf rest := by
        simp only [keysOf, List.map_cons, List.mem_cons] at hx
        rcases hx with h | h
        · exact absurd h.symm hc
        · exact h
      by_cases hgc : isGone (oc c.1)
      · rw [if_pos hgc]; exact ih (ddbDelete c.1 reg) hxr
      · rw [if_neg hgc]; exact ih reg hxr

theorem keysNodup_reconcile (oc : String → PushOutcome) (conns : Registry)
    (reg : Registry) (hnd : keysNodup reg) : keysNodup (reconcile oc conns reg) := by
  induction conns generalizing reg with
  | nil => simpa [reconcile] using hnd
  | cons c rest ih =>
    simp only [reconcile, List.foldl_cons]
    by_cases hg : isGone (oc c.1)
    · rw [if_pos hg]; exact ih (ddbDelete c.1 reg) (keysNodup_ddbDelete c.1 reg hnd)
    · rw [if_neg hg]; exact ih reg hnd

/-! ### Projection lemmas for `broadcastLocationUpdate` -/

theorem broadcast_storeDown (oc : String → PushOutcome) (dc simN : String)
    (d : TrackData) (reg : Registry) :
    broadcastLocationUpdate oc false dc simN d reg =
      { registry := reg, pushes := [],
        report := { attempted := 0, delivered := 0, evicted := 0 }, propagated := none } :=
  rfl

theorem broadcast_propagated (oc : String → PushOutcome) (up : Bool) (dc simN : String)
    (d : TrackData) (reg : Registry) :
    (broadcastLocationUpdate oc up dc simN d reg).propagated = none := by
  cases up with
  | false => rfl
  | true =>
    simp only [broadcastLocationUpdate]
    by_cases h : (queryByDeviceCode dc reg).isEmpty <;> simp [h]

theorem broadcast_empty (oc : String → PushOutcome) (dc simN : String)
    (d : TrackData) (reg : Registry) (h : queryByDeviceCode dc reg = []) :
    broadcastLocationUpdate oc true dc simN d reg =
      { registry := reg, pushes := [],
        report := { attempted := 0, delivered := 0, evicted := 0 }, propagated := none } := by
  simp [broadcastLocationUpdate, h]

theorem broadcast_pushes (oc : String → PushOutcome) (dc simN : String)
    (d : TrackData) (reg : Registry) :
    (broadcastLocationUpdate oc true dc simN d reg).pushes =
      (queryByDeviceCode dc reg).map
        (fun c => (c.1, renderLocationUpdate (mkLocationUpdate dc simN d))) := by
  simp only [broadcastLocationUpdate]
  by_cases h : (queryByDeviceCode dc reg).isEmpty
  · rw [List.isEmpty_iff] at h
    simp [h]
  · simp [h]

theorem broadcast_registry (oc : String → PushOutcome) (dc simN : String)
    (d : TrackData) (reg : Registry) :
    (broadcastLocationUpdate oc true dc simN d reg).registry =
      reconcile oc (queryByDeviceCode dc reg) reg := by
  simp only [broadcastLocationUpdate]
  by_cases h : (queryByDeviceCode dc reg).isEmpty
  · rw [List.isEmpty_iff] at h
    simp [h, reconcile]
  · simp [h]

theorem pushTargets_eq_keysOf_query (oc : String → PushOutcome) (dc simN : String)
    (d : TrackData) (reg : Registry) :
    pushTargets oc true dc simN d reg = keysOf (queryByDeviceCode dc reg) := by
  simp [pushTargets, broadcast_pushes, keysOf]

/-! ### Key uniqueness is preserved by every operation -/

theorem keysNodup_stepOp (reg : Registry) (op : Op) (hnd : keysNodup reg) :
    keysNodup (stepOp reg op) := by
  cases op with
  | connect id now =>
    simp only [stepOp, connectHandler, ddbPut]
    exact keysNodup_upsert _ _ _ reg hnd
  | join id dc now =>
    simp only [stepOp, ddbUpdateJoin]
    exact keysNodup_upsert _ _ _ reg hnd
  | disconnect id =>
    simp only [stepOp, disconnectHandler]
    exact keysNodup_ddbDelete id reg hnd
  | evict id =>
    simp only [stepOp]
    exact keysNodup_ddbDelete id reg hnd
  | publish oc up dc simN d =>
    cases up with
    | false => simpa only [stepOp, broadcast_storeDown] using hnd
    | true =>
      simp only [stepOp, broadcast_registry]
      exact keysNodup_reconcile oc _ reg hnd

theorem keysNodup_foldl_stepOp (ops : List Op) (reg : Registry) (hnd : keysNodup reg) :
    keysNodup (ops.foldl stepOp reg) := by
  induction ops generalizing reg with
  | nil => simpa using hnd
  | cons op rest ih =>
    simp only [List.foldl_cons]
    exact ih _ (keysNodup_stepOp reg op hnd)

/-- Every state reachable from the empty table has unique keys. -/
theorem keysNodup_runOps (ops : List Op) : keysNodup (runOps ops) :=
  keysNodup_foldl_stepOp ops [] (by simp [keysNodup, keysOf])

/-! ### Concrete fixtures used by witnesses and counterexamples -/

/-- A sample already-formatted fix payload. -/
def sampleData : TrackData :=
  { lat := "12.9", long := "77.6", level := none, altitude := none, speed := none,
    compress := none, weight := none, noOfSatellites := none,
    trackedAt := "2024-01-01T00:00:00.000Z" }

/-- A one-connection table: `c1` joined to room `DEV1`. -/
def oneReg : Registry :=
  [("c1", { timestamp := some 0, ttl := some 86400, status := some "connected",
            deviceCode := some "DEV1", joinedAt := some 0 })]

/-- A `JSON.parse` behaviour that recognises exactly the body
`'\x7b"deviceCode":"DEV1"\x7d'`. -/
def jpDev1 : String → Option JoinRoomRequest :=
  fun s => if s = "\x7b\"deviceCode\":\"DEV1\"\x7d" then some { deviceCode := some "DEV1" }
           else none

/-! ### Claims -/

/-- Claim C10: a join-room request with a null/absent message body is
treated by `parseBody` as the empty object (no exception), the handler
answers 400 "Device code is required", and the connection table is not
written. -/
theorem C10_null_body_rejected (jp : String → Option JoinRoomRequest) (id : String)
    (now : Nat) (reg : Registry) :
    parseBody jp none = .ok { deviceCode := none } ∧
    joinRoomHandler jp id none now reg =
      (reg, { statusCode := 400,
              body := "\x7b\"message\":\"Device code is required\"\x7d" }) :=
  ⟨rfl, rfl⟩

/-- Claim C4: publishing to a room with no joined connections succeeds:
no error, no pushes, no table mutation, and the report reads
attempted = 0, delivered = 0, evicted = 0. -/
theorem C4_publish_empty_room (oc : String → PushOutcome) (dc simN : String)
    (d : TrackData) (reg : Registry) (h : queryByDeviceCode dc reg = []) :
    broadcastLocationUpdate oc true dc simN d reg =
      { registry := reg, pushes := [],
        report := { attempted := 0, delivered := 0, evicted := 0 }, propagated := none } :=
  broadcast_empty oc dc simN d reg h

theorem C4_publish_empty_room_witness :
    queryByDeviceCode "DEV9" oneReg = [] ∧
    broadcastLocationUpdate (fun _ => PushOutcome.delivered) true "DEV9" "SIM1"
        sampleData oneReg =
      { registry := oneReg, pushes := [],
        report := { attempted := 0, delivered := 0, evicted := 0 }, propagated := none } :=
  ⟨by decide,
   C4_publish_empty_room (fun _ => PushOutcome.delivered) "DEV9" "SIM1" sampleData oneReg
     (by decide)⟩

/-- Claim C3 counterexample: with the backing store unreachable
(`storeUp = false`) and a live member in the room, the claim says
publish surfaces a hard error to its caller; in the code the outer
catch of `broadcastLocationUpdate` swallows the failure and the call
returns normally (`propagated = none`) with no pushes. -/
theorem C3_counterexample :
    queryByDeviceCode "DEV1" oneReg ≠ [] ∧
    broadcastLocationUpdate (fun _ => PushOutcome.delivered) false "DEV1" "SIM1"
        sampleData oneReg =
      { registry := oneReg, pushes := [],
        report := { attempted := 0, delivered := 0, evicted := 0 },
        propagated := none } := by
  exact ⟨by decide, rfl⟩

/-- Claim C3 (amended): `publish` never propagates an error to its
caller.  The whole body of `broadcastLocationUpdate` is inside a
try/catch that only logs, so every call resolves normally; when the
registry/index store is unreachable the call returns with no pushes and
the registry untouched instead of surfacing the failure. -/
theorem C3_publish_never_propagates (oc : String → PushOutcome) (up : Bool)
    (dc simN : String) (d : TrackData) (reg : Registry) :
    (broadcastLocationUpdate oc up dc simN d reg).propagated = none ∧
    broadcastLocationUpdate oc false dc simN d reg =
      { registry := reg, pushes := [],
        report := { attempted := 0, delivered := 0, evicted := 0 }, propagated := none } :=
  ⟨broadcast_propagated oc up dc simN d reg, broadcast_storeDown oc dc simN d reg⟩

/-- Rewrite every entry's `ttl` attribute (the expiry horizon), keeping
everything else unchanged.  Used to state that the publish-side
membership resolution never consults `ttl`. -/
def setTtls (f : String → Option Nat) (reg : Registry) : Registry :=
  reg.map (fun e => (e.1, { e.2 with ttl := f e.1 }))

theorem queryByDeviceCode_setTtls (f : String → Option Nat) (dc : String) (reg : Registry) :
    queryByDeviceCode dc (setTtls f reg) = setTtls f (queryByDeviceCode dc reg) := by
  induction reg with
  | nil => rfl
  | cons e rest ih =>
    obtain ⟨a, t1, t2, t3, t4, t5⟩ := e
    simp only [queryByDeviceCode, setTtls, List.map_cons, List.filter_cons] at ih ⊢
    cases hb : (t4 == some dc) with
    | false => simpa [hb] using ih
    | true => simpa [hb] using ih

theorem keysOf_setTtls (f : String → Option Nat) (reg : Registry) :
    keysOf (setTtls f reg) = keysOf reg := by
  induction reg with
  | nil => rfl
  | cons e rest ih => simp [setTtls, keysOf]

/-- A table with one entry whose ttl expired long ago but which has not
yet been physically deleted. -/
def staleReg : Registry :=
  [("c1", { timestamp := some 0, ttl := some 100, status := some "connected",
            deviceCode := some "DEV1", joinedAt := some 0 })]

/-- Claim C2 counterexample: an entry whose 100-second ttl has long
passed at t = 10^12 ms is still returned by the membership query and is
still pushed to by the fan-out — the claim says it must be excluded. -/
theorem C2_counterexample :
    lookupItem "c1" staleReg =
      some { timestamp := some 0, ttl := some 100, status := some "connected",
             deviceCode := some "DEV1", joinedAt := some 0 } ∧
    (100 : Nat) < 1000000000000 / 1000 ∧
    keysOf (queryByDeviceCode "DEV1" staleReg) = ["c1"] ∧
    pushTargets (fun _ => PushOutcome.delivered) true "DEV1" "SIM1" sampleData staleReg =
      ["c1"] := by
  refine ⟨rfl, by norm_num, by decide, by decide⟩

/-- Claim C2 (amended): the membership resolution used by publish
filters only on the `deviceCode` key of the `DeviceCodeIndex` query; it
never consults `expiresAt`/`ttl`, so entries whose ttl has passed are
still included until DynamoDB physically deletes them.  Formally, the
resolved member set and the fan-out targets are invariant under
arbitrary rewrites of every entry's `ttl`. -/
theorem C2_membership_ignores_ttl (f : String → Option Nat) (oc : String → PushOutcome)
    (dc simN : String) (d : TrackData) (reg : Registry) :
    keysOf (queryByDeviceCode dc (setTtls f reg)) = keysOf (queryByDeviceCode dc reg) ∧
    pushTargets oc true dc simN d (setTtls f reg) = pushTargets oc true dc simN d reg := by
  have hq : keysOf (queryByDeviceCode dc (setTtls f reg)) =
      keysOf (queryByDeviceCode dc reg) := by
    rw [queryByDeviceCode_setTtls, keysOf_setTtls]
  refine ⟨hq, ?_⟩
  rw [pushTargets_eq_keysOf_query, pushTargets_eq_keysOf_query, hq]

/-- Claim C1 counterexample: joining with a connectionId absent from the
table does not fail with NotFound and does write to the table — the
`dynamodb.update` call has no ConditionExpression, so DynamoDB upserts:
the handler answers 200 and a fresh entry is created holding only the
three SET attributes. -/
theorem C1_counterexample :
    lookupItem "c9" [] = none ∧
    (joinRoomHandler jpDev1 "c9" (some "\x7b\"deviceCode\":\"DEV1\"\x7d") 5000 []).2.statusCode
      = 200 ∧
    (joinRoomHandler jpDev1 "c9" (some "\x7b\"deviceCode\":\"DEV1\"\x7d") 5000 []).1 =
      [("c9", { timestamp := none, ttl := some 86405, status := none,
                deviceCode := some "DEV1", joinedAt := some 5000 })] := by
  refine ⟨rfl, ?_, ?_⟩ <;> decide

/-- Claim C1 (amended): `onJoin` never fails with NotFound — the update
is an upsert.  For a connectionId already present it sets `roomKey`
(`deviceCode`) and refreshes `joinedAt` and the expiry
(`ttl` = join time + 24h) on the existing entry, keeping its other
attributes; for an absent connectionId it creates a fresh entry with
exactly those three attributes.  Entries of other connections are
untouched, and the handler answers 200 in both cases. -/
theorem C1_join_upsert (jp : String → Option JoinRoomRequest) (id s dc oid : String)
    (now : Nat) (reg : Registry)
    (hparse : jp s = some { deviceCode := some dc }) (hs : s ≠ "") (hdc : dc ≠ "")
    (hoid : oid ≠ id) :
    (joinRoomHandler jp id (some s) now reg).2.statusCode = 200 ∧
    (joinRoomHandler jp id (some s) now reg).1 =
      ddbUpdateJoin id dc now (now / 1000 + 86400) reg ∧
    lookupItem id (joinRoomHandler jp id (some s) now reg).1 =
      some ((lookupItem id reg).elim
        { timestamp := none, ttl := some (now / 1000 + 86400), status := none,
          deviceCode := some dc, joinedAt := some now }
        (fun it =>
          { it with deviceCode := some dc, joinedAt := some now, ttl := some (now / 1000 + 86400) })) ∧
    lookupItem oid (joinRoomHandler jp id (some s) now reg).1 = lookupItem oid reg := by
  have hh : joinRoomHandler jp id (some s) now reg =
      (ddbUpdateJoin id dc now (now / 1000 + 86400) reg,
       { statusCode := 200,
         body := "\x7b\"message\":" ++ jstr ("Joined room for device: " ++ dc) ++
           ",\"deviceCode\":" ++ jstr dc ++ "\x7d" }) := by
    simp [joinRoomHandler, parseBody, hs, hparse, hdc]
  rw [hh]
  refine ⟨rfl, rfl, ?_, ?_⟩
  · exact lookupItem_upsert_self id _ _ reg
  · exact lookupItem_upsert_other oid id _ _ reg hoid

theorem C1_join_upsert_witness :
    jpDev1 "\x7b\"deviceCode\":\"DEV1\"\x7d" = some { deviceCode := some "DEV1" } ∧
    ("\x7b\"deviceCode\":\"DEV1\"\x7d" : String) ≠ "" ∧ ("DEV1" : String) ≠ "" ∧
    ("other" : String) ≠ "c1" ∧
    ((joinRoomHandler jpDev1 "c1" (some "\x7b\"deviceCode\":\"DEV1\"\x7d") 5000 oneReg).2.statusCode
        = 200 ∧
     (joinRoomHandler jpDev1 "c1" (some "\x7b\"deviceCode\":\"DEV1\"\x7d") 5000 oneReg).1 =
       ddbUpdateJoin "c1" "DEV1" 5000 (5000 / 1000 + 86400) oneReg ∧
     lookupItem "c1"
         (joinRoomHandler jpDev1 "c1" (some "\x7b\"deviceCode\":\"DEV1\"\x7d") 5000 oneReg).1 =
       some ((lookupItem "c1" oneReg).elim
         { timestamp := none, ttl := some (5000 / 1000 + 86400), status := none,
           deviceCode := some "DEV1", joinedAt := some 5000 }
         (fun it =>
           { it with deviceCode := some "DEV1", joinedAt := some 5000, ttl := some (5000 / 1000 + 86400) })) ∧
     lookupItem "other"
         (joinRoomHandler jpDev1 "c1" (some "\x7b\"deviceCode\":\"DEV1\"\x7d") 5000 oneReg).1 =
       lookupItem "other" oneReg) :=
  ⟨by decide, by decide, by decide, by decide,
   C1_join_upsert jpDev1 "c1" "\x7b\"deviceCode\":\"DEV1\"\x7d" "DEV1" "other" 5000 oneReg
     (by decide) (by decide) (by decide) (by decide)⟩

/-- Claim C5: a member whose push fails with status 410 (the transport
reports the connection gone) is deleted from the connection table by
the fan-out, so it appears in no room's membership on the next query;
the failure is swallowed by the per-connection catch and never
propagated to the ingestion caller. -/
theorem C5_permanent_failure_evicts (oc : String → PushOutcome) (dc simN dcOther : String)
    (d : TrackData) (reg : Registry) (id : String)
    (h1 : id ∈ keysOf (queryByDeviceCode dc reg))
    (h2 : oc id = .failed (some 410)) :
    lookupItem id (broadcastLocationUpdate oc true dc simN d reg).registry = none ∧
    ¬ memberOf id dcOther (broadcastLocationUpdate oc true dc simN d reg).registry ∧
    (broadcastLocationUpdate oc true dc simN d reg).propagated = none := by
  have hg : isGone (oc id) = true := by rw [h2]; rfl
  have hnone : lookupItem id (broadcastLocationUpdate oc true dc simN d reg).registry = none := by
    rw [broadcast_registry]
    exact lookupItem_reconcile_gone oc id (queryByDeviceCode dc reg) reg h1 hg
  refine ⟨hnone, ?_, broadcast_propagated oc true dc simN d reg⟩
  intro hmem
  rcases (mem_keysOf_query id dcOther _).1 hmem with ⟨it, hmem', _⟩
  have hkey : id ∈ keysOf (broadcastLocationUpdate oc true dc simN d reg).registry := by
    simp only [keysOf, List.mem_map]
    exact ⟨(id, it), hmem', rfl⟩
  exact (lookupItem_eq_none_iff id _).1 hnone hkey

theorem C5_permanent_failure_evicts_witness :
    "c1" ∈ keysOf (queryByDeviceCode "DEV1" oneReg) ∧
    (fun _ : String => PushOutcome.failed (some 410)) "c1" = PushOutcome.failed (some 410) ∧
    (lookupItem "c1"
        (broadcastLocationUpdate (fun _ => PushOutcome.failed (some 410)) true "DEV1" "SIM1"
          sampleData oneReg).registry = none ∧
     ¬ memberOf "c1" "DEV2"
         (broadcastLocationUpdate (fun _ => PushOutcome.failed (some 410)) true "DEV1" "SIM1"
           sampleData oneReg).registry ∧
     (broadcastLocationUpdate (fun _ => PushOutcome.failed (some 410)) true "DEV1" "SIM1"
         sampleData oneReg).propagated = none) :=
  ⟨by decide, rfl,
   C5_permanent_failure_evicts (fun _ => PushOutcome.failed (some 410)) "DEV1" "SIM1" "DEV2"
     sampleData oneReg "c1" (by decide) rfl⟩

theorem pushes_fst_eq_keysOf_query (oc : String → PushOutcome) (dc simN : String)
    (d : TrackData) (reg : Registry) :
    ((broadcastLocationUpdate oc true dc simN d reg).pushes.map Prod.fst) =
      keysOf (queryByDeviceCode dc reg) := by
  rw [broadcast_pushes]
  simp [keysOf, List.map_map, Function.comp]

/-- Claim C6: a member whose push fails with anything other than status
410 keeps its table entry completely unchanged — no deletion, no field
mutation — and the dispatcher pushes this fix to it exactly once (no
retry); nothing is propagated to the caller. -/
theorem C6_transient_failure_frame (oc : String → PushOutcome) (dc simN : String)
    (d : TrackData) (reg : Registry) (id : String) (c : Option Nat)
    (hnd : keysNodup reg)
    (h1 : id ∈ keysOf (queryByDeviceCode dc reg))
    (h2 : oc id = .failed c) (h3 : c ≠ some 410) :
    lookupItem id (broadcastLocationUpdate oc true dc simN d reg).registry =
      lookupItem id reg ∧
    ((broadcastLocationUpdate oc true dc simN d reg).pushes.map Prod.fst).count id = 1 ∧
    (broadcastLocationUpdate oc true dc simN d reg).propagated = none := by
  have hg : isGone (oc id) = false := by
    rw [h2]
    cases c with
    | none => rfl
    | some n =>
      have hn : ¬ n = 410 := fun hn => h3 (by rw [hn])
      simp [isGone, hn]
  refine ⟨?_, ?_, broadcast_propagated oc true dc simN d reg⟩
  · rw [broadcast_registry]
    exact lookupItem_reconcile_not_gone oc id (queryByDeviceCode dc reg) reg hg
  · rw [pushes_fst_eq_keysOf_query]
    have hsub : List.Sublist (keysOf (queryByDeviceCode dc reg)) (keysOf reg) :=
      List.Sublist.map Prod.fst (List.filter_sublist reg)
    exact List.count_eq_one_of_mem (List.Nodup.sublist hsub hnd) h1

theorem C6_transient_failure_frame_witness :
    keysNodup oneReg ∧
    "c1" ∈ keysOf (queryByDeviceCode "DEV1" oneReg) ∧
    (fun _ : String => PushOutcome.failed (some 429)) "c1" = PushOutcome.failed (some 429) ∧
    some 429 ≠ some 410 ∧
    (lookupItem "c1"
        (broadcastLocationUpdate (fun _ => PushOutcome.failed (some 429)) true "DEV1" "SIM1"
          sampleData oneReg).registry = lookupItem "c1" oneReg ∧
     ((broadcastLocationUpdate (fun _ => PushOutcome.failed (some 429)) true "DEV1" "SIM1"
         sampleData oneReg).pushes.map Prod.fst).count "c1" = 1 ∧
     (broadcastLocationUpdate (fun _ => PushOutcome.failed (some 429)) true "DEV1" "SIM1"
         sampleData oneReg).propagated = none) :=
  ⟨by decide, by decide, rfl, by decide,
   C6_transient_failure_frame (fun _ => PushOutcome.failed (some 429)) "DEV1" "SIM1"
     sampleData oneReg "c1" (some 429) (by decide) (by decide) rfl (by decide)⟩

/-- Claim C8: for a fix accepted by the ingestion path, the payload is
serialized exactly once — every push of the fan-out carries the same
string, the `JSON.stringify` of
`\x7b type: "location-update", deviceCode, iotSimNumber, data \x7d`
with `data` holding lat, long, the present telemetry fields, and
`trackedAt` as the ISO-8601 rendering of the fix time.  The last two
conjuncts pin the concrete wire format and the ISO-8601 rendering on a
sample fix. -/
theorem C8_payload_single_serialization (oc : String → PushOutcome) (dc simN : String)
    (req : TrackDeviceRequest) (tms : Nat) (reg : Registry) :
    (trackDeviceBroadcast oc true dc simN req tms reg).pushes =
      (queryByDeviceCode dc reg).map (fun c => (c.1,
        renderLocationUpdate (mkLocationUpdate dc simN
          { lat := req.lat, long := req.long, level := req.level,
            altitude := req.altitude, speed := req.speed, compress := req.compress,
            weight := req.weight, noOfSatellites := req.noOfSatellites,
            trackedAt := toISOString tms }))) ∧
    renderLocationUpdate (mkLocationUpdate "ABCDEF" "89911000" sampleData) =
      "\x7b\"type\":\"location-update\",\"deviceCode\":\"ABCDEF\",\"iotSimNumber\":\"89911000\",\"data\":\x7b\"lat\":\"12.9\",\"long\":\"77.6\",\"trackedAt\":\"2024-01-01T00:00:00.000Z\"\x7d\x7d" ∧
    toISOString 1704067200000 = "2024-01-01T00:00:00.000Z" := by
  refine ⟨?_, by decide, by decide⟩
  exact broadcast_pushes oc dc simN
    { lat := req.lat, long := req.long, level := req.level,
      altitude := req.altitude, speed := req.speed, compress := req.compress,
      weight := req.weight, noOfSatellites := req.noOfSatellites,
      trackedAt := toISOString tms } reg

/-- Claim C9: a transport re-connect for a joined connection replaces
the whole table item via `dynamodb.put` with one holding no
`deviceCode`/room, so the connection is no longer a member of any room
and receives no further publishes until it joins again. -/
theorem C9_reconnect_clears_room (reg : Registry) (id dc dcq simN : String)
    (it : ConnItem) (now : Nat) (oc : String → PushOutcome) (d : TrackData)
    (hnd : keysNodup reg)
    (_h1 : lookupItem id reg = some it) (_h2 : it.deviceCode = some dc) :
    lookupItem id (connectHandler id now reg).1 =
      some { timestamp := some now, ttl := some (now / 1000 + 86400),
             status := some "connected", deviceCode := none, joinedAt := none } ∧
    ¬ memberOf id dcq (connectHandler id now reg).1 ∧
    id ∉ pushTargets oc true dcq simN d (connectHandler id now reg).1 := by
  set fresh : ConnItem :=
    { timestamp := some now, ttl := some (now / 1000 + 86400),
      status := some "connected", deviceCode := none, joinedAt := none } with hfresh
  have hreg : (connectHandler id now reg).1 = ddbPut id fresh reg := rfl
  have hnd' : keysNodup (ddbPut id fresh reg) := keysNodup_upsert id _ _ reg hnd
  have hlook : lookupItem id (ddbPut id fresh reg) = some fresh := by
    rw [ddbPut, lookupItem_upsert_self]
    cases lookupItem id reg <;> rfl
  have hnotmem : ¬ memberOf id dcq (ddbPut id fresh reg) := by
    intro hmem
    rcases (memberOf_iff_lookup id dcq _ hnd').1 hmem with ⟨it', hl', hdc'⟩
    rw [hlook] at hl'
    have : fresh = it' := Option.some.inj hl'
    rw [← this] at hdc'
    simp [hfresh] at hdc'
  refine ⟨by rw [hreg]; exact hlook, by rw [hreg]; exact hnotmem, ?_⟩
  rw [hreg, pushTargets_eq_keysOf_query]
  exact hnotmem

theorem C9_reconnect_clears_room_witness :
    keysNodup oneReg ∧
    lookupItem "c1" oneReg =
      some { timestamp := some 0, ttl := some 86400, status := some "connected",
             deviceCode := some "DEV1", joinedAt := some 0 } ∧
    ConnItem.deviceCode
        { timestamp := some 0, ttl := some 86400, status := some "connected",
          deviceCode := some "DEV1", joinedAt := some 0 } = some "DEV1" ∧
    (lookupItem "c1" (connectHandler "c1" 7000 oneReg).1 =
       some { timestamp := some 7000, ttl := some (7000 / 1000 + 86400),
              status := some "connected", deviceCode := none, joinedAt := none } ∧
     ¬ memberOf "c1" "DEV1" (connectHandler "c1" 7000 oneReg).1 ∧
     "c1" ∉ pushTargets (fun _ => PushOutcome.delivered) true "DEV1" "SIM1" sampleData
       (connectHandler "c1" 7000 oneReg).1) :=
  ⟨by decide, by decide, rfl,
   C9_reconnect_clears_room oneReg "c1" "DEV1" "DEV1" "SIM1"
     { timestamp := some 0, ttl := some 86400, status := some "connected",
       deviceCode := some "DEV1", joinedAt := some 0 }
     7000 (fun _ => PushOutcome.delivered) sampleData (by decide) (by decide) rfl⟩

theorem lookup_rejoin (ops : List Op) (id : String) (n1 n2 : Nat) :
    ∃ it : ConnItem, lookupItem id (rejoinState ops id n1 n2) = some it ∧
      it.deviceCode = some "DEV2" := by
  have hrw : rejoinState ops id n1 n2 =
      ddbUpdateJoin id "DEV2" n2 (n2 / 1000 + 86400)
        (ddbUpdateJoin id "DEV1" n1 (n1 / 1000 + 86400) (runOps ops)) := by
    simp [rejoinState, runOps, List.foldl_append, stepOp]
  rw [hrw, ddbUpdateJoin, lookupItem_upsert_self]
  cases lookupItem id (ddbUpdateJoin id "DEV1" n1 (n1 / 1000 + 86400) (runOps ops)) with
  | none => exact ⟨_, rfl, rfl⟩
  | some it => exact ⟨_, rfl, rfl⟩

/-- Claim C7: in every state reachable by connect/join/disconnect/evict
/publish operations, a connection is a member of at most one room (the
one its `deviceCode` attribute names); and after joining DEV1 and then
DEV2, the connection is a member of DEV2 and not of DEV1, so a publish
to DEV1 does not push to it while a publish to DEV2 does. -/
theorem C7_single_room_invariant (ops : List Op) (id dc1 dc2 simN : String)
    (n1 n2 : Nat) (oc : String → PushOutcome) (d : TrackData)
    (h1 : memberOf id dc1 (runOps ops)) (h2 : memberOf id dc2 (runOps ops)) :
    dc1 = dc2 ∧
    memberOf id "DEV2" (rejoinState ops id n1 n2) ∧
    ¬ memberOf id "DEV1" (rejoinState ops id n1 n2) ∧
    id ∈ pushTargets oc true "DEV2" simN d (rejoinState ops id n1 n2) ∧
    id ∉ pushTargets oc true "DEV1" simN d (rejoinState ops id n1 n2) := by
  have hnd := keysNodup_runOps ops
  have hnd2 : keysNodup (rejoinState ops id n1 n2) := keysNodup_runOps _
  rcases (memberOf_iff_lookup id dc1 _ hnd).1 h1 with ⟨it1, hl1, hd1⟩
  rcases (memberOf_iff_lookup id dc2 _ hnd).1 h2 with ⟨it2, hl2, hd2⟩
  have heq : it1 = it2 := Option.some.inj (hl1.symm.trans hl2)
  have hdc : dc1 = dc2 := by
    rw [heq] at hd1
    exact Option.some.inj (hd1.symm.trans hd2)
  rcases lookup_rejoin ops id n1 n2 with ⟨it, hit, hitdc⟩
  have hm2 : memberOf id "DEV2" (rejoinState ops id n1 n2) :=
    (memberOf_iff_lookup id "DEV2" _ hnd2).2 ⟨it, hit, hitdc⟩
  have hm1 : ¬ memberOf id "DEV1" (rejoinState ops id n1 n2) := by
    intro hmem
    rcases (memberOf_iff_lookup id "DEV1" _ hnd2).1 hmem with ⟨it', hl', hdc'⟩
    rw [hit] at hl'
    rw [← Option.some.inj hl'] at hdc'
    rw [hitdc] at hdc'
    exact absurd (Option.some.inj hdc') (by decide)
  refine ⟨hdc, hm2, hm1, ?_, ?_⟩
  · rw [pushTargets_eq_keysOf_query]; exact hm2
  · rw [pushTargets_eq_keysOf_query]; exact hm1

/-- Connect then join `c1` to room `R`: a concrete reachable state. -/
def wOps : List Op := [Op.connect "c1" 0, Op.join "c1" "R" 0]

theorem C7_single_room_invariant_witness :
    memberOf "c1" "R" (runOps wOps) ∧
    (("R" : String) = "R" ∧
     memberOf "c1" "DEV2" (rejoinState wOps "c1" 0 0) ∧
     ¬ memberOf "c1" "DEV1" (rejoinState wOps "c1" 0 0) ∧
     "c1" ∈ pushTargets (fun _ => PushOutcome.delivered) true "DEV2" "SIM1" sampleData
       (rejoinState wOps "c1" 0 0) ∧
     "c1" ∉ pushTargets (fun _ => PushOutcome.delivered) true "DEV1" "SIM1" sampleData
       (rejoinState wOps "c1" 0 0)) :=
  ⟨by decide,
   C7_single_room_invariant wOps "c1" "R" "R" "SIM1" 0 0 (fun _ => PushOutcome.delivered)
     sampleData (by decide) (by decide)⟩
